import Mathlib

/-!
# Unique-request accounting service (`main.go`)

A shallow embedding of the accounting engine of `main.go`: the record type, the
state owned by `RequestStats`, the two operations the accounting loop runs
(`processRequest`, `logUniqueRequestCount`), the notifier `sendHTTPPost` and the
HTTP handler registered at `/api/verve/accept`.

Every call the program makes to the outside (mutex, log file, diagnostic log,
HTTP client) is recorded, in program order, in a list of `Effect`s.  What the
outside answers (the result of `json.Marshal`, of `http.Post`, of
`WriteString`, the formatted current time) is supplied by a `World`.
-/

namespace Verve

/-- The Go struct `RequestRecord`: an identifier and a callback endpoint. -/
structure RequestRecord where
  ID : Int
  Endpoint : String
deriving DecidableEq, Repr

/-- The state held by the Go struct `RequestStats`: the key set of the map
`uniqueIDs` and the buffered contents of `requestChan`, oldest first.  The mutex
and the log file show up in the effect list. -/
structure RequestStats where
  uniqueIDs : Finset Int
  requestChan : List RequestRecord
deriving DecidableEq

/-- The calls the program makes to the outside, in program order. -/
inductive Effect where
  /-- The call `rs.mu.Lock()`. -/
  | muLock
  /-- The call `rs.mu.Unlock()`. -/
  | muUnlock
  /-- Entry into `rs.sendHTTPPost(endpoint, uniqueCount)`. -/
  | sendHTTPPost (endpoint : String) (uniqueCount : Nat)
  /-- The call `http.Post(url, contentType, body)`. -/
  | httpPost (url : String) (contentType : String) (body : String)
  /-- The deferred `resp.Body.Close()`. -/
  | respBodyClose
  /-- A line sent to the diagnostic logger with `log.Printf`. -/
  | logPrintf (msg : String)
  /-- The call `rs.logFile.WriteString(msg)`. -/
  | writeString (msg : String)
deriving DecidableEq, Repr

/-- What the outside answers during one call of an operation. -/
structure World where
  /-- Result of `json.Marshal` on the payload map: the bytes, or the error text. -/
  marshal : List (String × Nat) → Except String String
  /-- Result of `http.Post url contentType body`: `resp.Status`, or the error text. -/
  post : String → String → String → Except String String
  /-- The value of `time.Now().Format(time.RFC3339)`. -/
  now : String
  /-- Error returned by `logFile.WriteString`, `none` when the write succeeds. -/
  writeErr : String → Option String

/-- Capacity of `requestChan`, from `make(chan RequestRecord, 10000)`. -/
def chanCap : Nat := 10000

/-- `NewRequestStats`: opens the log file (`openErr` is the error of
`os.OpenFile`, `none` on success); a failure is fatal, otherwise the state
starts with an empty map and an empty channel. -/
def NewRequestStats (openErr : Option String) : Except String RequestStats :=
  match openErr with
  | some e => .error ("Failed to open log file: " ++ e)
  | none => .ok { uniqueIDs := ∅, requestChan := [] }

/-- `sendHTTPPost`: marshal the payload, make one POST, log the outcome. -/
def sendHTTPPost (w : World) (endpoint : String) (uniqueCount : Nat) : List Effect :=
  Effect.sendHTTPPost endpoint uniqueCount ::
    match w.marshal [("unique_count", uniqueCount)] with
    | .error e => [Effect.logPrintf ("Failed to marshal payload: " ++ e)]
    | .ok body =>
      match w.post endpoint "application/json" body with
      | .error e =>
        [Effect.httpPost endpoint "application/json" body,
         Effect.logPrintf ("Failed to send POST request: " ++ e)]
      | .ok status =>
        [Effect.httpPost endpoint "application/json" body,
         Effect.logPrintf ("POST request to " ++ endpoint ++ " returned status: " ++ status),
         Effect.respBodyClose]

/-- `processRequest`: under the mutex, admit the identifier when it is new and,
when the record has an endpoint, call `sendHTTPPost` with the new map size. -/
def processRequest (w : World) (rs : RequestStats) (record : RequestRecord) :
    RequestStats × List Effect :=
  if record.ID ∈ rs.uniqueIDs then
    (rs, [Effect.muLock, Effect.muUnlock])
  else
    let rs1 : RequestStats := { rs with uniqueIDs := insert record.ID rs.uniqueIDs }
    if record.Endpoint ≠ "" then
      (rs1, [Effect.muLock] ++ sendHTTPPost w record.Endpoint rs1.uniqueIDs.card
              ++ [Effect.muUnlock])
    else
      (rs1, [Effect.muLock, Effect.muUnlock])

/-- The `fmt.Sprintf` of `logUniqueRequestCount`:
`"%s - Unique requests in the last minute: %d\n"`. -/
def logMessage (timestamp : String) (count : Nat) : String :=
  timestamp ++ " - Unique requests in the last minute: " ++ toString count ++ "\n"

/-- `logUniqueRequestCount`: under the mutex take the map size and replace the
map by an empty one; then write the log line, reporting a failed write. -/
def logUniqueRequestCount (w : World) (rs : RequestStats) : RequestStats × List Effect :=
  let count := rs.uniqueIDs.card
  let rs1 : RequestStats := { rs with uniqueIDs := ∅ }
  let msg := logMessage w.now count
  (rs1, [Effect.muLock, Effect.muUnlock, Effect.writeString msg] ++
    match w.writeErr msg with
    | some e => [Effect.logPrintf ("Failed to write log: " ++ e)]
    | none => [])

/-- The successive `processRequest` calls that `StartLogging` makes for the
records it receives between two ticks; each call has its own `World`. -/
def processAll (rs : RequestStats) : List (World × RequestRecord) → RequestStats × List Effect
  | [] => (rs, [])
  | (w, r) :: xs =>
    let step := processRequest w rs r
    let rest := processAll step.1 xs
    (rest.1, step.2 ++ rest.2)

/-- An event taken by the `select` of `StartLogging`. -/
inductive LoopEvent where
  /-- The case `<-ticker.C`. -/
  | tick
  /-- The case `record := <-rs.requestChan`. -/
  | recv
deriving DecidableEq, Repr

/-- One iteration of the `for`/`select` of `StartLogging`; `none` when the
chosen case is not ready (receive on an empty channel). -/
def loopStep (w : World) (rs : RequestStats) : LoopEvent → Option (RequestStats × List Effect)
  | .tick => some (logUniqueRequestCount w rs)
  | .recv =>
    match rs.requestChan with
    | [] => none
    | r :: rest => some (processRequest w { rs with requestChan := rest } r)

/-- `StartLogging` run over a finite sequence of `select` outcomes. -/
def StartLogging (rs : RequestStats) :
    List (World × LoopEvent) → Option (RequestStats × List Effect)
  | [] => some (rs, [])
  | (w, e) :: es =>
    match loopStep w rs e with
    | none => none
    | some step =>
      match StartLogging step.1 es with
      | none => none
      | some rest => some (rest.1, step.2 ++ rest.2)

/-! ## The HTTP handler -/

/-- Value of a string of decimal digits. -/
def digitsValue (cs : List Char) : Nat :=
  cs.foldl (fun n c => 10 * n + (c.toNat - 48)) 0

/-- The behaviour of `strconv.Atoi` for a 64-bit `int`: an optional sign, then
one or more decimal digits, and a value in the range of `int`; `none` is the
error result. -/
def Atoi (s : String) : Option Int :=
  let cs := s.toList
  let signed : Bool × List Char :=
    match cs with
    | '-' :: t => (true, t)
    | '+' :: t => (false, t)
    | _ => (false, cs)
  if signed.2 = [] then none
  else if signed.2.all Char.isDigit then
    let n := digitsValue signed.2
    if signed.1 then
      if n ≤ 2 ^ 63 then some (-(n : Int)) else none
    else
      if n < 2 ^ 63 then some (n : Int) else none
  else none

/-- The method `url.Values.Get`: the first value of the key, `""` when absent.
The query is the sequence of decoded key/value pairs of `r.URL.Query()`. -/
def Get (query : List (String × String)) (key : String) : String :=
  match query.find? (fun kv => kv.1 == key) with
  | some kv => kv.2
  | none => ""

/-- What the handler writes to the `http.ResponseWriter`. -/
structure Response where
  status : Nat
  body : String
deriving DecidableEq, Repr

/-- The handler registered at `/api/verve/accept`.  A send on a full
`requestChan` waits for room: that is the result `none` (no response yet). -/
def acceptHandler (rs : RequestStats) (query : List (String × String)) :
    Option (RequestStats × Response) :=
  let idParam := Get query "id"
  let endpoint := Get query "endpoint"
  if idParam = "" then
    some (rs, { status := 400, body := "Missing required parameter: id\n" })
  else
    match Atoi idParam with
    | none => some (rs, { status := 400, body := "Invalid id parameter\n" })
    | some id =>
      if rs.requestChan.length < chanCap then
        some ({ rs with requestChan := rs.requestChan ++ [{ ID := id, Endpoint := endpoint }] },
              { status := 200, body := "ok\n" })
      else none

/-! ## Observations on effect lists -/

/-- The notifications of an effect list: the arguments of each `sendHTTPPost` call. -/
def notifications (t : List Effect) : List (String × Nat) :=
  t.filterMap fun e =>
    match e with
    | .sendHTTPPost ep n => some (ep, n)
    | _ => none

/-- The POST attempts of an effect list: the arguments of each `http.Post` call. -/
def posts (t : List Effect) : List (String × String × String) :=
  t.filterMap fun e =>
    match e with
    | .httpPost url ct body => some (url, ct, body)
    | _ => none

/-- The lines handed to `logFile.WriteString` in an effect list. -/
def fileWrites (t : List Effect) : List String :=
  t.filterMap fun e =>
    match e with
    | .writeString msg => some msg
    | _ => none

/-- Number of notifications dispatched, over a run of `processRequest` calls,
by the calls whose record carries identifier `i`. -/
def dispatchesFor (i : Int) (rs : RequestStats) : List (World × RequestRecord) → Nat
  | [] => 0
  | (w, r) :: xs =>
    let step := processRequest w rs r
    (if r.ID = i then (notifications step.2).length else 0) + dispatchesFor i step.1 xs

/-- The bytes `json.Marshal` produces for the payload `unique_count = n`. -/
def jsonMarshal (payload : List (String × Nat)) : Except String String :=
  .ok ("\x7b" ++ ",".intercalate (payload.map fun kv => "\"" ++ kv.1 ++ "\":" ++ toString kv.2)
        ++ "\x7d")

/-- A world in which every call succeeds: the callback answers `200 OK`. -/
def okWorld : World :=
  { marshal := jsonMarshal
    post := fun _ _ _ => .ok "200 OK"
    now := "2024-01-01T00:00:00Z"
    writeErr := fun _ => none }

/-- A world in which the callback target is unreachable. -/
def downWorld : World :=
  { marshal := jsonMarshal
    post := fun _ _ _ => .error "connection refused"
    now := "2024-01-01T00:00:00Z"
    writeErr := fun _ => none }

/-! ## Sample inputs -/

/-- A state with an empty map and an empty channel. -/
def emptyStats : RequestStats := { uniqueIDs := ∅, requestChan := [] }

/-- A state whose channel holds `chanCap` records: the buffer is full. -/
def fullStats : RequestStats :=
  { uniqueIDs := ∅, requestChan := List.replicate chanCap { ID := 0, Endpoint := "" } }

/-- The window `id=1`, `id=2&endpoint=http://x/cb`, `id=1`. -/
def sampleWindow : List (World × RequestRecord) :=
  [(okWorld, { ID := 1, Endpoint := "" }),
   (okWorld, { ID := 2, Endpoint := "http://x/cb" }),
   (okWorld, { ID := 1, Endpoint := "" })]

/-! ## Lemmas on single operations -/

theorem processRequest_state (w : World) (rs : RequestStats) (r : RequestRecord) :
    (processRequest w rs r).1 = { rs with uniqueIDs := insert r.ID rs.uniqueIDs } := by
  unfold processRequest
  by_cases h : r.ID ∈ rs.uniqueIDs
  · simp [h]
  · by_cases he : r.Endpoint = "" <;> simp [h, he]

theorem notifications_sendHTTPPost (w : World) (ep : String) (n : Nat) :
    notifications (sendHTTPPost w ep n) = [(ep, n)] := by
  unfold sendHTTPPost notifications
  split
  · simp
  · split <;> simp

theorem posts_sendHTTPPost_le (w : World) (ep : String) (n : Nat) :
    (posts (sendHTTPPost w ep n)).length ≤ 1 := by
  unfold sendHTTPPost posts
  split
  · simp
  · split <;> simp

theorem notifications_processRequest (w : World) (rs : RequestStats) (r : RequestRecord) :
    notifications (processRequest w rs r).2 =
      if r.ID ∈ rs.uniqueIDs ∨ r.Endpoint = "" then []
      else [(r.Endpoint, (insert r.ID rs.uniqueIDs).card)] := by
  unfold processRequest
  by_cases h : r.ID ∈ rs.uniqueIDs
  · simp [h, notifications]
  · by_cases he : r.Endpoint = ""
    · simp [h, he, notifications]
    · have hn := notifications_sendHTTPPost w r.Endpoint (insert r.ID rs.uniqueIDs).card
      simp only [notifications] at hn
      simp only [h, he, notifications, if_false, or_self, ne_eq, not_false_eq_true, if_true,
        List.filterMap_append, hn, List.singleton_append, List.filterMap_cons,
        List.filterMap_nil, List.append_nil]

theorem processAll_uniqueIDs (xs : List (World × RequestRecord)) (rs : RequestStats) :
    (processAll rs xs).1.uniqueIDs = rs.uniqueIDs ∪ (xs.map fun x => x.2.ID).toFinset := by
  induction xs generalizing rs with
  | nil => simp [processAll]
  | cons x xs ih =>
    obtain ⟨w, r⟩ := x
    simp only [processAll, ih, processRequest_state, List.map_cons, List.toFinset_cons]
    ext a
    simp only [Finset.mem_union, Finset.mem_insert, List.mem_toFinset]
    tauto

theorem processAll_requestChan (xs : List (World × RequestRecord)) (rs : RequestStats) :
    (processAll rs xs).1.requestChan = rs.requestChan := by
  induction xs generalizing rs with
  | nil => simp [processAll]
  | cons x xs ih =>
    obtain ⟨w, r⟩ := x
    simp only [processAll, ih, processRequest_state]

theorem fileWrites_logUniqueRequestCount (w : World) (rs : RequestStats) :
    fileWrites (logUniqueRequestCount w rs).2 = [logMessage w.now rs.uniqueIDs.card] := by
  unfold logUniqueRequestCount fileWrites
  simp only [List.filterMap_append]
  split <;> simp

/-! ## Lemmas on runs of `processRequest` -/

theorem notifications_append (t u : List Effect) :
    notifications (t ++ u) = notifications t ++ notifications u := by
  simp [notifications, List.filterMap_append]

theorem card_le_processRequest (w : World) (rs : RequestStats) (r : RequestRecord) :
    rs.uniqueIDs.card ≤ (processRequest w rs r).1.uniqueIDs.card := by
  rw [processRequest_state]
  exact Finset.card_le_card (Finset.subset_insert _ _)

theorem notification_counts_increasing (xs : List (World × RequestRecord)) (rs : RequestStats) :
    List.Pairwise (fun a b => a < b) ((notifications (processAll rs xs).2).map Prod.snd) ∧
      ∀ c ∈ (notifications (processAll rs xs).2).map Prod.snd, rs.uniqueIDs.card < c := by
  induction xs generalizing rs with
  | nil => simp [processAll, notifications]
  | cons x xs ih =>
    obtain ⟨w, r⟩ := x
    obtain ⟨ihp, ihc⟩ := ih (processRequest w rs r).1
    have hle := card_le_processRequest w rs r
    simp only [processAll, notifications_append, List.map_append]
    by_cases hq : r.ID ∈ rs.uniqueIDs ∨ r.Endpoint = ""
    · simp only [notifications_processRequest, hq, if_true, List.map_nil, List.nil_append]
      exact ⟨ihp, fun c hc => lt_of_le_of_lt hle (ihc c hc)⟩
    · have hnew : r.ID ∉ rs.uniqueIDs := fun h => hq (Or.inl h)
      have hst : (processRequest w rs r).1.uniqueIDs.card = (insert r.ID rs.uniqueIDs).card := by
        rw [processRequest_state]
      simp only [notifications_processRequest, hq, if_false, List.map_cons, List.map_nil,
        List.singleton_append, List.pairwise_cons, List.mem_cons]
      refine ⟨⟨fun c hc => ?_, ihp⟩, fun c hc => ?_⟩
      · exact hst ▸ ihc c hc
      · have hlt : rs.uniqueIDs.card < (insert r.ID rs.uniqueIDs).card := by
          rw [Finset.card_insert_of_not_mem hnew]; exact Nat.lt_succ_self _
        rcases hc with rfl | hc
        · exact hlt
        · exact lt_trans hlt (hst ▸ ihc c hc)

theorem dispatchesFor_of_mem (i : Int) (xs : List (World × RequestRecord)) (rs : RequestStats)
    (h : i ∈ rs.uniqueIDs) : dispatchesFor i rs xs = 0 := by
  induction xs generalizing rs with
  | nil => rfl
  | cons x xs ih =>
    obtain ⟨w, r⟩ := x
    have hin : i ∈ (processRequest w rs r).1.uniqueIDs := by
      rw [processRequest_state]; exact Finset.mem_insert_of_mem h
    simp only [dispatchesFor, ih _ hin, Nat.add_zero]
    by_cases hi : r.ID = i
    · subst hi
      simp [notifications_processRequest, h]
    · simp [hi]

theorem dispatchesFor_le_one (i : Int) (xs : List (World × RequestRecord)) (rs : RequestStats) :
    dispatchesFor i rs xs ≤ 1 := by
  induction xs generalizing rs with
  | nil => simp [dispatchesFor]
  | cons x xs ih =>
    obtain ⟨w, r⟩ := x
    by_cases hi : r.ID = i
    · subst hi
      have hin : r.ID ∈ (processRequest w rs r).1.uniqueIDs := by
        rw [processRequest_state]; exact Finset.mem_insert_self _ _
      simp only [dispatchesFor, if_true, dispatchesFor_of_mem _ _ _ hin, Nat.add_zero,
        notifications_processRequest]
      split <;> simp
    · simp only [dispatchesFor, hi, if_false, Nat.zero_add]
      exact ih _

theorem dispatchesFor_append (i : Int) (xs ys : List (World × RequestRecord))
    (rs : RequestStats) :
    dispatchesFor i rs (xs ++ ys) =
      dispatchesFor i rs xs + dispatchesFor i (processAll rs xs).1 ys := by
  induction xs generalizing rs with
  | nil => simp [dispatchesFor, processAll]
  | cons x xs ih =>
    obtain ⟨w, r⟩ := x
    have h := ih (processRequest w rs r).1
    simp only [List.cons_append, dispatchesFor, processAll, Nat.add_assoc]
    exact congrArg _ h

theorem dispatchesFor_of_absent (i : Int) (xs : List (World × RequestRecord))
    (rs : RequestStats) (h : ∀ x ∈ xs, x.2.ID ≠ i) : dispatchesFor i rs xs = 0 := by
  induction xs generalizing rs with
  | nil => rfl
  | cons x xs ih =>
    obtain ⟨w, r⟩ := x
    have hr : r.ID ≠ i := h (w, r) (List.mem_cons_self _ _)
    simp only [dispatchesFor, hr, if_false, Nat.zero_add]
    exact ih _ fun y hy => h y (List.mem_cons_of_mem _ hy)

/-! ## The accounting loop between two ticks -/

theorem processRequest_effects_chan (w : World) (rs : RequestStats) (q : List RequestRecord)
    (r : RequestRecord) :
    (processRequest w { rs with requestChan := q } r).2 = (processRequest w rs r).2 := by
  unfold processRequest
  by_cases h : r.ID ∈ rs.uniqueIDs
  · simp [h]
  · by_cases he : r.Endpoint = "" <;> simp [h, he]

/-- When the channel holds the records of `xs` (followed by `rest`) and the
`select` takes the receive case once per record, `StartLogging` does what
`processAll` does, and leaves `rest` in the channel. -/
theorem StartLogging_receives (xs : List (World × RequestRecord)) (rs : RequestStats)
    (rest : List RequestRecord) (h : rs.requestChan = xs.map Prod.snd ++ rest) :
    StartLogging rs (xs.map fun x => (x.1, LoopEvent.recv))
      = some (processAll { rs with requestChan := rest } xs) := by
  induction xs generalizing rs with
  | nil => simp at h; cases rs; simp_all [StartLogging, processAll]
  | cons x xs ih =>
    obtain ⟨w, r⟩ := x
    have hq : rs.requestChan = r :: (xs.map Prod.snd ++ rest) := by simpa using h
    have hstep : loopStep w rs LoopEvent.recv
        = some (processRequest w { rs with requestChan := xs.map Prod.snd ++ rest } r) := by
      simp [loopStep, hq]
    have hih := ih (processRequest w { rs with requestChan := xs.map Prod.snd ++ rest } r).1
      (by rw [processRequest_state])
    simp only [List.map_cons, StartLogging, hstep, hih, processAll]
    simp only [processRequest_state, processRequest_effects_chan]

/-! ## Decimal rendering -/

theorem digitChar_toNat (m : Nat) (h : m < 10) : (Nat.digitChar m).toNat - 48 = m := by
  interval_cases m <;> rfl

theorem digitChar_isDigit (m : Nat) (h : m < 10) : (Nat.digitChar m).isDigit = true := by
  interval_cases m <;> rfl

theorem toDigitsCore_value (fuel : Nat) : ∀ (n : Nat) (ds : List Char), n < fuel →
    (Nat.toDigitsCore 10 fuel n ds).foldl (fun n c => 10 * n + (c.toNat - 48)) 0
      = ds.foldl (fun n c => 10 * n + (c.toNat - 48)) n := by
  induction fuel with
  | zero => intro n ds h; exact absurd h (Nat.not_lt_zero _)
  | succ fuel ih =>
    intro n ds h
    have hd := digitChar_toNat (n % 10) (Nat.mod_lt _ (by decide))
    simp only [Nat.toDigitsCore]
    split
    · simp only [List.foldl_cons, hd]
      congr 1
      omega
    · rw [ih (n / 10) _ (by omega)]
      simp only [List.foldl_cons, hd]
      congr 1
      omega

theorem toDigitsCore_isDigit (fuel : Nat) : ∀ (n : Nat) (ds : List Char),
    (∀ c ∈ ds, c.isDigit = true) → ∀ c ∈ Nat.toDigitsCore 10 fuel n ds, c.isDigit = true := by
  induction fuel with
  | zero => intro n ds h; simpa [Nat.toDigitsCore] using h
  | succ fuel ih =>
    intro n ds h
    have hd := digitChar_isDigit (n % 10) (Nat.mod_lt _ (by decide))
    have hds : ∀ c ∈ Nat.digitChar (n % 10) :: ds, c.isDigit = true := by
      intro c hc
      rcases List.mem_cons.1 hc with rfl | hc
      · exact hd
      · exact h c hc
    simp only [Nat.toDigitsCore]
    split
    · exact hds
    · exact ih _ _ hds

/-- Reading the rendering of `n` back as a decimal numeral gives `n`. -/
theorem repr_value (n : Nat) : digitsValue (Nat.repr n).toList = n := by
  simp only [Nat.repr, Nat.toDigits, digitsValue, List.asString, String.toList]
  rw [toDigitsCore_value _ _ _ (Nat.lt_succ_self n)]
  rfl

/-- The rendering of `n` consists of decimal digits. -/
theorem repr_isDigit (n : Nat) : ∀ c ∈ (Nat.repr n).toList, c.isDigit = true := by
  simp only [Nat.repr, Nat.toDigits, List.asString, String.toList]
  exact toDigitsCore_isDigit _ _ _ (by simp)

/-! ## Lemmas on the handler -/

theorem Get_absent (query : List (String × String)) (key : String)
    (h : ∀ kv ∈ query, kv.1 ≠ key) : Get query key = "" := by
  unfold Get
  have hnone : query.find? (fun kv => kv.1 == key) = none :=
    List.find?_eq_none.2 fun kv hkv => by simpa using h kv hkv
  rw [hnone]

theorem acceptHandler_of_Atoi (rs : RequestStats) (query : List (String × String)) (id : Int)
    (hid : Atoi (Get query "id") = some id) :
    acceptHandler rs query
      = (if rs.requestChan.length < chanCap then
          some ({ rs with requestChan :=
                    rs.requestChan ++ [{ ID := id, Endpoint := Get query "endpoint" }] },
                { status := 200, body := "ok\n" })
        else none) := by
  have hne : Get query "id" ≠ "" := by
    intro h
    have hempty : Atoi "" = none := by decide
    rw [h, hempty] at hid
    cases hid
  unfold acceptHandler
  simp only [hne, hid, if_false]

/-! ## The scenarios of the specification, evaluated -/

/-- Submitting `id=1` without endpoint: the next tick logs the count 1. -/
theorem scenario_single_id :
    fileWrites (logUniqueRequestCount okWorld
        (processAll emptyStats [(okWorld, { ID := 1, Endpoint := "" })]).1).2
      = ["2024-01-01T00:00:00Z - Unique requests in the last minute: 1\n"] := by
  decide

/-- Submitting `id=1`, `id=2&endpoint=http://x/cb`, `id=1`: one POST, to
`http://x/cb`, with `unique_count` 2, and the next tick logs the count 2. -/
theorem scenario_sample_window :
    posts (processAll emptyStats sampleWindow).2
        = [("http://x/cb", "application/json", "\x7b\"unique_count\":2\x7d")] ∧
      fileWrites (logUniqueRequestCount okWorld (processAll emptyStats sampleWindow).1).2
        = ["2024-01-01T00:00:00Z - Unique requests in the last minute: 2\n"] := by
  constructor <;> decide

/-! ## Window accounting -/

/-- C1: starting from the state left by a tick, or from the state built by
`NewRequestStats`, after any sequence of `processRequest` calls the next
`logUniqueRequestCount` writes the log line whose count is the number of
distinct `ID` values among the processed records. -/
theorem logged_count_eq_distinct (w0 w : World) (rs : RequestStats)
    (xs : List (World × RequestRecord)) :
    fileWrites (logUniqueRequestCount w (processAll (logUniqueRequestCount w0 rs).1 xs).1).2
        = [logMessage w.now (xs.map fun x => x.2.ID).dedup.length] ∧
      (NewRequestStats none).map
          (fun rs0 => fileWrites (logUniqueRequestCount w (processAll rs0 xs).1).2)
        = .ok [logMessage w.now (xs.map fun x => x.2.ID).dedup.length] := by
  constructor
  · rw [fileWrites_logUniqueRequestCount, processAll_uniqueIDs]
    simp [logUniqueRequestCount, List.card_toFinset]
  · simp only [NewRequestStats, Except.map]
    rw [fileWrites_logUniqueRequestCount, processAll_uniqueIDs]
    simp [List.card_toFinset]

/-- C2: a record with a new `ID` and a non-empty `Endpoint` makes `processRequest`
issue exactly one notification, to that endpoint, whose count is the size of the
map right after the insertion (and exactly one POST carrying the marshalled
payload when marshalling succeeds); over any run of `processRequest` calls the
counts of the successive notifications are non-decreasing. -/
theorem notification_reflects_size (w : World) (rs : RequestStats) (r : RequestRecord)
    (hnew : r.ID ∉ rs.uniqueIDs) (hep : r.Endpoint ≠ "")
    (rs0 : RequestStats) (xs : List (World × RequestRecord)) :
    (processRequest w rs r).1.uniqueIDs = insert r.ID rs.uniqueIDs ∧
      notifications (processRequest w rs r).2
        = [(r.Endpoint, (processRequest w rs r).1.uniqueIDs.card)] ∧
      (∀ body, w.marshal [("unique_count", (insert r.ID rs.uniqueIDs).card)] = .ok body →
        posts (processRequest w rs r).2 = [(r.Endpoint, "application/json", body)]) ∧
      List.Sorted (fun a b => a ≤ b) ((notifications (processAll rs0 xs).2).map Prod.snd) := by
  refine ⟨by rw [processRequest_state], ?_, ?_, ?_⟩
  · rw [notifications_processRequest, processRequest_state]
    simp [hnew, hep]
  · intro body hbody
    unfold processRequest
    simp only [hnew, hep, if_false, ne_eq, not_false_eq_true, if_true, sendHTTPPost, hbody]
    unfold posts
    split <;> simp
  · exact (notification_counts_increasing xs rs0).1.imp fun h => Nat.le_of_lt h

/-- Witness for C2: identifier 2 arriving with an endpoint when the map holds 1. -/
theorem notification_reflects_size_witness :
    ((2 : Int) ∉ ({1} : Finset Int) ∧ ("http://x/cb" : String) ≠ "") ∧
      notifications
          (processRequest okWorld { uniqueIDs := {1}, requestChan := [] }
            { ID := 2, Endpoint := "http://x/cb" }).2
        = [("http://x/cb",
            (processRequest okWorld { uniqueIDs := {1}, requestChan := [] }
              { ID := 2, Endpoint := "http://x/cb" }).1.uniqueIDs.card)] :=
  ⟨⟨by decide, by decide⟩,
    (notification_reflects_size okWorld { uniqueIDs := {1}, requestChan := [] }
      { ID := 2, Endpoint := "http://x/cb" } (by decide) (by decide) emptyStats sampleWindow).2.1⟩

/-- C3: over any run of `processRequest` calls and for every identifier, the
calls whose record carries that identifier dispatch at most one notification;
and a record whose `ID` is already in the map leaves the state unchanged and
sends nothing. -/
theorem duplicate_is_noop (i : Int) (rs0 : RequestStats) (xs : List (World × RequestRecord))
    (w : World) (rs : RequestStats) (r : RequestRecord) (hdup : r.ID ∈ rs.uniqueIDs) :
    dispatchesFor i rs0 xs ≤ 1 ∧
      (processRequest w rs r).1 = rs ∧
      notifications (processRequest w rs r).2 = [] ∧
      posts (processRequest w rs r).2 = [] := by
  refine ⟨dispatchesFor_le_one i xs rs0, ?_, ?_, ?_⟩
  · simp [processRequest, hdup]
  · simp [notifications_processRequest, hdup]
  · simp [processRequest, hdup, posts]

/-- Witness for C3: identifier 2 resubmitted with an endpoint while in the map. -/
theorem duplicate_is_noop_witness :
    (2 : Int) ∈ ({1, 2} : Finset Int) ∧
      dispatchesFor 2 emptyStats sampleWindow ≤ 1 ∧
      (processRequest okWorld { uniqueIDs := {1, 2}, requestChan := [] }
          { ID := 2, Endpoint := "http://x/cb" }).1
        = { uniqueIDs := {1, 2}, requestChan := [] } :=
  ⟨by decide,
    (duplicate_is_noop 2 emptyStats sampleWindow okWorld { uniqueIDs := {1, 2}, requestChan := [] }
      { ID := 2, Endpoint := "http://x/cb" } (by decide)).1,
    (duplicate_is_noop 2 emptyStats sampleWindow okWorld { uniqueIDs := {1, 2}, requestChan := [] }
      { ID := 2, Endpoint := "http://x/cb" } (by decide)).2.1⟩

/-- C4: after `logUniqueRequestCount` the map is empty whatever it held; a
record processed next is inserted as new, notifies exactly when its `Endpoint`
is non-empty (with count 1), and is counted by the next tick; a tick that
follows a tick directly logs the count 0 and leaves the map empty. -/
theorem tick_resets_window (w w1 w2 : World) (rs : RequestStats) (r : RequestRecord)
    (xs : List (World × RequestRecord)) :
    (logUniqueRequestCount w rs).1.uniqueIDs = ∅ ∧
      (processRequest w1 (logUniqueRequestCount w rs).1 r).1.uniqueIDs = {r.ID} ∧
      notifications (processRequest w1 (logUniqueRequestCount w rs).1 r).2
        = (if r.Endpoint = "" then [] else [(r.Endpoint, 1)]) ∧
      r.ID ∈ (processAll (logUniqueRequestCount w rs).1 ((w1, r) :: xs)).1.uniqueIDs ∧
      fileWrites (logUniqueRequestCount w2
          (processAll (logUniqueRequestCount w rs).1 ((w1, r) :: xs)).1).2
        = [logMessage w2.now (r.ID :: xs.map fun x => x.2.ID).dedup.length] ∧
      fileWrites (logUniqueRequestCount w2 (logUniqueRequestCount w rs).1).2
        = [logMessage w2.now 0] ∧
      (logUniqueRequestCount w2 (logUniqueRequestCount w rs).1).1
        = (logUniqueRequestCount w rs).1 := by
  have h0 : (logUniqueRequestCount w rs).1.uniqueIDs = ∅ := rfl
  refine ⟨h0, ?_, ?_, ?_, ?_, ?_, ?_⟩
  · rw [processRequest_state]; simp [h0]
  · rw [notifications_processRequest, h0]
    by_cases he : r.Endpoint = "" <;> simp [he]
  · rw [processAll_uniqueIDs]; simp
  · rw [fileWrites_logUniqueRequestCount, processAll_uniqueIDs, h0]
    simp only [Finset.empty_union, List.card_toFinset, List.map_cons]
  · rw [fileWrites_logUniqueRequestCount, h0]; rfl
  · rfl

/-- C10: in a window whose first record carrying an identifier has an empty
`Endpoint`, no call of `processRequest` on a record with that identifier
dispatches a notification, whatever endpoints the later records carry. -/
theorem first_without_endpoint_silences (rs : RequestStats)
    (pre : List (World × RequestRecord)) (w : World) (r : RequestRecord)
    (xs : List (World × RequestRecord))
    (hfirst : ∀ x ∈ pre, x.2.ID ≠ r.ID) (hep : r.Endpoint = "") :
    dispatchesFor r.ID rs (pre ++ (w, r) :: xs) = 0 := by
  have hmem : r.ID ∈ (processRequest w (processAll rs pre).1 r).1.uniqueIDs := by
    rw [processRequest_state]; exact Finset.mem_insert_self _ _
  rw [dispatchesFor_append, dispatchesFor_of_absent _ _ _ hfirst]
  simp only [dispatchesFor, if_true, dispatchesFor_of_mem _ _ _ hmem,
    notifications_processRequest, hep]
  simp

/-- Witness for C10: identifier 1 first arrives without an endpoint, then twice
with one. -/
theorem first_without_endpoint_silences_witness :
    dispatchesFor 1 emptyStats
      ([(okWorld, { ID := 5, Endpoint := "http://y/cb" })] ++
        (okWorld, { ID := 1, Endpoint := "" }) ::
          [(okWorld, { ID := 1, Endpoint := "http://x/cb" }),
           (downWorld, { ID := 1, Endpoint := "http://z/cb" })]) = 0 :=
  first_without_endpoint_silences emptyStats [(okWorld, { ID := 5, Endpoint := "http://y/cb" })]
    okWorld { ID := 1, Endpoint := "" }
    [(okWorld, { ID := 1, Endpoint := "http://x/cb" }),
     (downWorld, { ID := 1, Endpoint := "http://z/cb" })]
    (by simp) rfl

/-! ## The notifier -/

/-- C6: whatever `json.Marshal` and `http.Post` answer, `sendHTTPPost` makes at
most one POST attempt, `processRequest` goes on to unlock the mutex and return,
and the state it returns is the one with the identifier inserted and nothing
else changed, the same under any two outcomes. -/
theorem post_outcome_leaves_state (w w2 : World) (rs : RequestStats) (r : RequestRecord)
    (ep : String) (n : Nat) :
    (posts (sendHTTPPost w ep n)).length ≤ 1 ∧
      (posts (processRequest w rs r).2).length ≤ 1 ∧
      (processRequest w rs r).2.getLast? = some Effect.muUnlock ∧
      (processRequest w rs r).1 = (processRequest w2 rs r).1 ∧
      (processRequest w rs r).1.uniqueIDs = insert r.ID rs.uniqueIDs ∧
      (processRequest w rs r).1.requestChan = rs.requestChan := by
  refine ⟨posts_sendHTTPPost_le w ep n, ?_, ?_, ?_, ?_, ?_⟩
  · unfold processRequest
    by_cases h : r.ID ∈ rs.uniqueIDs
    · simp [h, posts]
    · by_cases he : r.Endpoint = ""
      · simp [h, he, posts]
      · have hp := posts_sendHTTPPost_le w r.Endpoint (insert r.ID rs.uniqueIDs).card
        simp only [posts] at hp
        simpa [h, he, posts, List.filterMap_append] using hp
  · unfold processRequest
    by_cases h : r.ID ∈ rs.uniqueIDs
    · simp [h]
    · by_cases he : r.Endpoint = ""
      · simp [h, he]
      · simp only [h, he, if_false, ne_eq, not_false_eq_true, if_true]
        exact List.getLast?_concat _
  · rw [processRequest_state, processRequest_state]
  · rw [processRequest_state]
  · rw [processRequest_state]

/-- C5 fails: with a new identifier and an endpoint, the effects of
`processRequest` up to its return contain the POST and the log line reporting
the response status, both before the unlock; and they differ between a callback
that answers and one that is unreachable. -/
theorem processRequest_waits_for_post :
    (processRequest okWorld emptyStats { ID := 1, Endpoint := "http://x/cb" }).2
        = [Effect.muLock,
           Effect.sendHTTPPost "http://x/cb" 1,
           Effect.httpPost "http://x/cb" "application/json" "\x7b\"unique_count\":1\x7d",
           Effect.logPrintf "POST request to http://x/cb returned status: 200 OK",
           Effect.respBodyClose,
           Effect.muUnlock] ∧
      (processRequest downWorld emptyStats { ID := 1, Endpoint := "http://x/cb" }).2
        ≠ (processRequest okWorld emptyStats { ID := 1, Endpoint := "http://x/cb" }).2 := by
  constructor <;> decide

/-- C5 as amended: for a new identifier with a non-empty endpoint the
notification runs inside `processRequest`, between the lock and the unlock.
Under each outcome the effects up to the return are: lock, entry into
`sendHTTPPost`, then either the marshal failure log, or the POST followed by
the failure log, or the POST followed by the status log and the close of the
response body, and only then the unlock.  In `StartLogging` the effects of
whatever the loop takes next, a tick or a record, come after that unlock. -/
theorem notification_is_synchronous (w w2 : World) (rs : RequestStats) (r : RequestRecord)
    (rest : List RequestRecord) (es : List (World × LoopEvent))
    (xs : List (World × RequestRecord))
    (hnew : r.ID ∉ rs.uniqueIDs) (hep : r.Endpoint ≠ "") :
    (∀ e, w.marshal [("unique_count", (insert r.ID rs.uniqueIDs).card)] = .error e →
        (processRequest w rs r).2
          = [Effect.muLock,
             Effect.sendHTTPPost r.Endpoint (insert r.ID rs.uniqueIDs).card,
             Effect.logPrintf ("Failed to marshal payload: " ++ e),
             Effect.muUnlock]) ∧
      (∀ body e, w.marshal [("unique_count", (insert r.ID rs.uniqueIDs).card)] = .ok body →
        w.post r.Endpoint "application/json" body = .error e →
        (processRequest w rs r).2
          = [Effect.muLock,
             Effect.sendHTTPPost r.Endpoint (insert r.ID rs.uniqueIDs).card,
             Effect.httpPost r.Endpoint "application/json" body,
             Effect.logPrintf ("Failed to send POST request: " ++ e),
             Effect.muUnlock]) ∧
      (∀ body status,
        w.marshal [("unique_count", (insert r.ID rs.uniqueIDs).card)] = .ok body →
        w.post r.Endpoint "application/json" body = .ok status →
        (processRequest w rs r).2
          = [Effect.muLock,
             Effect.sendHTTPPost r.Endpoint (insert r.ID rs.uniqueIDs).card,
             Effect.httpPost r.Endpoint "application/json" body,
             Effect.logPrintf
               ("POST request to " ++ r.Endpoint ++ " returned status: " ++ status),
             Effect.respBodyClose,
             Effect.muUnlock]) ∧
      StartLogging { rs with requestChan := r :: rest } [(w, LoopEvent.recv), (w2, LoopEvent.tick)]
        = some ({ uniqueIDs := ∅, requestChan := rest },
            (processRequest w rs r).2 ++
              (logUniqueRequestCount w2
                { uniqueIDs := insert r.ID rs.uniqueIDs, requestChan := rest }).2) ∧
      StartLogging { rs with requestChan := r :: rest } ((w, LoopEvent.recv) :: es)
        = (StartLogging { uniqueIDs := insert r.ID rs.uniqueIDs, requestChan := rest } es).map
            (fun p => (p.1, (processRequest w rs r).2 ++ p.2)) ∧
      (processAll rs ((w, r) :: xs)).2
        = (processRequest w rs r).2 ++
            (processAll { rs with uniqueIDs := insert r.ID rs.uniqueIDs } xs).2 := by
  have htrace : (processRequest w rs r).2
      = [Effect.muLock] ++ sendHTTPPost w r.Endpoint (insert r.ID rs.uniqueIDs).card
          ++ [Effect.muUnlock] := by
    unfold processRequest
    simp only [hnew, hep, if_false, ne_eq, not_false_eq_true, if_true]
  have hstep : loopStep w { rs with requestChan := r :: rest } LoopEvent.recv
      = some ({ uniqueIDs := insert r.ID rs.uniqueIDs, requestChan := rest },
          (processRequest w rs r).2) := by
    simp only [loopStep]
    rw [← processRequest_effects_chan w rs rest r]
    have hst := processRequest_state w { rs with requestChan := rest } r
    exact congrArg some (Prod.ext hst rfl)
  have hgen : ∀ es1 : List (World × LoopEvent),
      StartLogging { rs with requestChan := r :: rest } ((w, LoopEvent.recv) :: es1)
        = (StartLogging { uniqueIDs := insert r.ID rs.uniqueIDs, requestChan := rest } es1).map
            (fun p => (p.1, (processRequest w rs r).2 ++ p.2)) := by
    intro es1
    rw [StartLogging, hstep]
    dsimp only
    cases StartLogging { uniqueIDs := insert r.ID rs.uniqueIDs, requestChan := rest } es1 <;> rfl
  refine ⟨?_, ?_, ?_, ?_, ?_, ?_⟩
  · intro e he
    rw [htrace]
    simp only [sendHTTPPost, he, List.singleton_append, List.cons_append, List.nil_append]
  · intro body e hb he
    rw [htrace]
    simp only [sendHTTPPost, hb, he, List.singleton_append, List.cons_append, List.nil_append]
  · intro body status hb hs
    rw [htrace]
    simp only [sendHTTPPost, hb, hs, List.singleton_append, List.cons_append, List.nil_append]
  · rw [hgen [(w2, LoopEvent.tick)]]
    simp only [StartLogging, loopStep, List.append_nil, Option.map]
    rfl
  · exact hgen es
  · simp only [processAll, processRequest_state]

/-- Witness for C5 as amended: identifier 1 with an endpoint whose target is
unreachable; the failed POST and its log line lie before the unlock. -/
theorem notification_is_synchronous_witness :
    ((1 : Int) ∉ emptyStats.uniqueIDs ∧ ("http://x/cb" : String) ≠ "") ∧
      (processRequest downWorld emptyStats { ID := 1, Endpoint := "http://x/cb" }).2
        = [Effect.muLock,
           Effect.sendHTTPPost "http://x/cb" (insert (1 : Int) emptyStats.uniqueIDs).card,
           Effect.httpPost "http://x/cb" "application/json" "\x7b\"unique_count\":1\x7d",
           Effect.logPrintf ("Failed to send POST request: " ++ "connection refused"),
           Effect.muUnlock] :=
  ⟨⟨by decide, by decide⟩,
    (notification_is_synchronous downWorld okWorld emptyStats
      { ID := 1, Endpoint := "http://x/cb" } [] [(okWorld, LoopEvent.tick)]
      [(okWorld, { ID := 2, Endpoint := "" })] (by decide) (by decide)).2.1
      "\x7b\"unique_count\":1\x7d" "connection refused" rfl rfl⟩

/-! ## The log line -/

/-- C9: `logUniqueRequestCount` hands exactly one string to
`logFile.WriteString`: the RFC3339 time stamp, then
`" - Unique requests in the last minute: "`, then the decimal rendering of the
size the map had (decimal digits only, which read back give that size), then
one newline; the string has one newline more than the time stamp. -/
theorem tick_writes_one_line (w : World) (rs : RequestStats) :
    fileWrites (logUniqueRequestCount w rs).2
        = [w.now ++ " - Unique requests in the last minute: "
            ++ Nat.repr rs.uniqueIDs.card ++ "\n"] ∧
      (Nat.repr rs.uniqueIDs.card).toList.all Char.isDigit = true ∧
      digitsValue (Nat.repr rs.uniqueIDs.card).toList = rs.uniqueIDs.card ∧
      (w.now ++ " - Unique requests in the last minute: "
          ++ Nat.repr rs.uniqueIDs.card ++ "\n").toList.count '\n'
        = w.now.toList.count '\n' + 1 := by
  refine ⟨?_, ?_, repr_value _, ?_⟩
  · rw [fileWrites_logUniqueRequestCount]
    rfl
  · exact List.all_eq_true.2 (repr_isDigit _)
  · have hrepr : (Nat.repr rs.uniqueIDs.card).toList.count '\n' = 0 := by
      refine List.count_eq_zero.2 fun hmem => ?_
      exact absurd (repr_isDigit _ _ hmem) (by decide)
    have hsep : (" - Unique requests in the last minute: " : String).toList.count '\n' = 0 := by
      decide
    have hnl : ("\n" : String).toList.count '\n' = 1 := by decide
    simp only [String.toList, String.data_append, List.count_append] at hrepr hsep hnl ⊢
    omega

/-! ## The handler of `/api/verve/accept` -/

/-- C7: when the `id` parameter is absent or empty, or `strconv.Atoi` rejects
it, the handler answers with status 400 and returns the state as it was: no
record is put on `requestChan`. -/
theorem bad_id_rejected (rs : RequestStats) (query : List (String × String))
    (hbad : (∀ kv ∈ query, kv.1 ≠ "id") ∨ Get query "id" = "" ∨
      Atoi (Get query "id") = none) :
    ∃ body, acceptHandler rs query = some (rs, { status := 400, body := body }) := by
  unfold acceptHandler
  by_cases h : Get query "id" = ""
  · exact ⟨"Missing required parameter: id\n", by simp [h]⟩
  · rcases hbad with habs | h0 | h1
    · exact absurd (Get_absent query "id" habs) h
    · exact absurd h0 h
    · exact ⟨"Invalid id parameter\n", by simp [h, h1]⟩

/-- Witness for C7: the request `id=abc`. -/
theorem bad_id_rejected_witness :
    Atoi (Get [("id", "abc")] "id") = none ∧
      ∃ body, acceptHandler emptyStats [("id", "abc")]
        = some (emptyStats, { status := 400, body := body }) :=
  ⟨by decide, bad_id_rejected emptyStats [("id", "abc")] (Or.inr (Or.inr (by decide)))⟩

/-- C8 fails: on a channel that holds 10000 records the request `id=2` is
neither enqueued nor answered; the handler waits at the send. -/
theorem full_channel_no_response :
    Atoi (Get [("id", "2")] "id") = some 2 ∧
      fullStats.requestChan.length = chanCap ∧
      chanCap = 10000 ∧
      acceptHandler fullStats [("id", "2")] = none := by
  have hid : Atoi (Get [("id", "2")] "id") = some 2 := by decide
  have hlen : fullStats.requestChan.length = chanCap := List.length_replicate _ _
  refine ⟨hid, hlen, rfl, ?_⟩
  rw [acceptHandler_of_Atoi fullStats _ 2 hid, if_neg]
  rw [hlen]
  exact Nat.lt_irrefl _

/-- C8 as amended: when `strconv.Atoi` accepts the `id` parameter, the handler
acts according to the room in `requestChan`.  With fewer than 10000 records
buffered it appends exactly one record, with that integer as `ID` and the value
of the `endpoint` parameter as `Endpoint`, which is empty when the parameter is
absent, and answers with status 200 and the line `ok`.  With a full buffer it
waits at the send: nothing is appended and nothing is answered. -/
theorem good_id_enqueued (rs : RequestStats) (query : List (String × String)) (id : Int)
    (hid : Atoi (Get query "id") = some id) :
    chanCap = 10000 ∧
      acceptHandler rs query
        = (if rs.requestChan.length < chanCap then
            some ({ rs with requestChan :=
                      rs.requestChan ++ [{ ID := id, Endpoint := Get query "endpoint" }] },
                  { status := 200, body := "ok\n" })
          else none) ∧
      ((∀ kv ∈ query, kv.1 ≠ "endpoint") → Get query "endpoint" = "") :=
  ⟨rfl, acceptHandler_of_Atoi rs query id hid, Get_absent query "endpoint"⟩

/-- Witness for C8 as amended: the request `id=2&endpoint=http://x/cb` arriving
while one record waits in the channel. -/
theorem good_id_enqueued_witness :
    Atoi (Get [("id", "2"), ("endpoint", "http://x/cb")] "id") = some 2 ∧
      acceptHandler { uniqueIDs := {7}, requestChan := [{ ID := 7, Endpoint := "" }] }
          [("id", "2"), ("endpoint", "http://x/cb")]
        = some ({ uniqueIDs := {7},
                  requestChan := [{ ID := 7, Endpoint := "" },
                                  { ID := 2, Endpoint := "http://x/cb" }] },
                { status := 200, body := "ok\n" }) :=
  ⟨by decide,
    ((good_id_enqueued { uniqueIDs := {7}, requestChan := [{ ID := 7, Endpoint := "" }] }
      [("id", "2"), ("endpoint", "http://x/cb")] 2 (by decide)).2.1).trans (by decide)⟩

end Verve
